import Mathlib

/-!
Verification of the workout-logging workflow of a fitness-tracking web app.
The embedding models the front-end pages `WorkoutStartPage.tsx` (template
materialization, interactive set editing, validation and submission) and
`WorkoutDetailPage.tsx` (display grouping of a persisted workout's sets).

JavaScript strings that feed `Number(...)` are modelled by `JsStr`: either the
empty string, a string parsing to a finite number `q`, or a string parsing to
NaN or an infinity (`nan`).  Date-input strings are modelled by `DateStr`:
empty, parsing to an epoch-milliseconds value, or unparseable.  `Math.round`
is `jsRound` (round half towards positive infinity).
-/

inductive Technique where
  | normal
  | dropset
  | myoReps
  | failure
  | restPause
deriving DecidableEq, Repr

inductive JsStr where
  | empty
  | num (q : ℚ)
  | nan
deriving DecidableEq, Repr

/-- Result of JavaScript `Number(s)` combined with the `Number.isFinite`
check: `none` means the value is NaN or infinite.  The empty string parses
to `0`. -/
def jsToNum : JsStr → Option ℚ
  | .empty => some 0
  | .num q => some q
  | .nan => none

/-- JavaScript `Math.round`: round half towards positive infinity, that is
`⌊q + 1/2⌋` (theorem `jsRound_eq_floor` below).  Written with integer
division on numerator and denominator so that it evaluates by kernel
reduction. -/
def jsRound (q : ℚ) : ℤ := (2 * q.num + (q.den : ℤ)) / (2 * (q.den : ℤ))

inductive DateStr where
  | empty
  | valid (ms : ℤ)
  | invalid
deriving DecidableEq, Repr

/-- Model of `new Date(s).getTime()` guarded by the `Number.isNaN` check of
the code: `none` when the string is empty or unparseable. -/
def dateMs : DateStr → Option ℤ
  | .valid ms => some ms
  | _ => none

structure RoutineExercise where
  exerciseId : ℤ
  exerciseName : String
  sets : ℤ
  repRangeMin : Option ℤ
  repRangeMax : Option ℤ
  technique : Technique
  restTime : Option ℤ
deriving DecidableEq, Repr

structure Routine where
  id : ℤ
  name : String
  exercises : List RoutineExercise
deriving DecidableEq, Repr

structure WorkoutSetForm where
  weight : JsStr
  reps : JsStr
  technique : Technique
  restTime : JsStr
deriving DecidableEq, Repr

structure ExerciseWorkoutForm where
  exerciseId : ℤ
  exerciseName : String
  targetRange : Option String
  sets : List WorkoutSetForm
deriving DecidableEq, Repr

/-- JavaScript truthiness of an optional number: `null`, `undefined` and `0`
are falsy. -/
def truthy : Option ℤ → Bool
  | some n => n != 0
  | none => false

/-- From `WorkoutStartPage.tsx`, `getTargetRange` (lines 56-73).  The
conditions use JavaScript truthiness, so a bound equal to `0` behaves like an
absent bound. -/
def getTargetRange (e : RoutineExercise) : Option String :=
  if truthy e.repRangeMin && truthy e.repRangeMax then
    if e.repRangeMin = e.repRangeMax then
      some (toString (e.repRangeMin.getD 0) ++ " repeticiones")
    else
      some (toString (e.repRangeMin.getD 0) ++ "-" ++ toString (e.repRangeMax.getD 0) ++ " repeticiones")
  else if truthy e.repRangeMin then
    some ("≥ " ++ toString (e.repRangeMin.getD 0) ++ " repeticiones")
  else if truthy e.repRangeMax then
    some ("≤ " ++ toString (e.repRangeMax.getD 0) ++ " repeticiones")
  else
    none

/-- One constructor per distinct user-facing `setFormError` message of
`handleSubmit` in `WorkoutStartPage.tsx`. -/
inductive FormError where
  | noRoutine
  | startRequired
  | noExercises
  | repsAtLeastOne
  | weightInvalid
  | restInvalid
  | noSetsRegistered
  | startInvalid
  | completedInvalid
  | completedBeforeStart
  | durationInvalid
deriving DecidableEq, Repr

/-- One element of `CreateWorkoutRequest['sets']` as assembled by
`handleSubmit` (lines 293-301). -/
structure PayloadSet where
  exerciseId : ℤ
  exerciseName : String
  setNumber : ℕ
  weight : Option ℚ
  reps : ℤ
  technique : Technique
  restTime : Option ℤ
deriving DecidableEq, Repr

/-- The `CreateWorkoutRequest` payload (lines 355-363); the two ISO
timestamps are modelled by their epoch-milliseconds values. -/
structure Payload where
  routineId : ℤ
  routineName : String
  startedAt : ℤ
  completedAt : Option ℤ
  duration : Option ℤ
  notes : Option String
  sets : List PayloadSet
deriving DecidableEq, Repr

/-- The component state read by `handleSubmit`.  The free-text notes input
is modelled by its trimmed content: `none` when the input is blank,
`some s` (with `s` non-empty and trimmed) otherwise — this captures the
`notes.trim() ? notes.trim() : undefined` of line 361 directly in the
state, as no validation ever reads the notes. -/
structure SubmitState where
  routine : Option Routine
  exercises : List ExerciseWorkoutForm
  startedAt : DateStr
  markCompleted : Bool
  completedAt : DateStr
  durationMinutes : JsStr
  notes : Option String

deriving instance DecidableEq for Except

/-- Body of the inner flattening loop of `handleSubmit` (lines 272-302):
per-set validation (reps finite and ≥ 1; non-empty weight finite; non-empty
rest finite) and construction of the pushed payload set. -/
def buildSet (exId : ℤ) (exName : String) (index : ℕ) (sf : WorkoutSetForm) : Except FormError PayloadSet :=
  match jsToNum sf.reps with
  | none => .error .repsAtLeastOne
  | some repsValue =>
    if repsValue < 1 then .error .repsAtLeastOne
    else if sf.weight ≠ JsStr.empty ∧ jsToNum sf.weight = none then .error .weightInvalid
    else if sf.restTime ≠ JsStr.empty ∧ jsToNum sf.restTime = none then .error .restInvalid
    else .ok
      { exerciseId := exId
        exerciseName := exName
        setNumber := index + 1
        weight := if sf.weight = JsStr.empty then none else jsToNum sf.weight
        reps := jsRound repsValue
        technique := sf.technique
        restTime := if sf.restTime = JsStr.empty then none else (jsToNum sf.restTime).map jsRound }

/-- Inner loop of the flattening in `handleSubmit`: iterates the sets of one
exercise, carrying the 0-based index, stopping at the first failure. -/
def flattenSets (exId : ℤ) (exName : String) : ℕ → List WorkoutSetForm → Except FormError (List PayloadSet)
  | _, [] => .ok []
  | index, sf :: rest =>
    match buildSet exId exName index sf with
    | .error e => .error e
    | .ok ps =>
      match flattenSets exId exName (index + 1) rest with
      | .error e => .error e
      | .ok tail => .ok (ps :: tail)

/-- Outer loop of the flattening in `handleSubmit` (lines 271-303): iterates
the exercises in form order, concatenating their flattened sets, stopping at
the first failure. -/
def flattenAll : List ExerciseWorkoutForm → Except FormError (List PayloadSet)
  | [] => .ok []
  | ex :: rest =>
    match flattenSets ex.exerciseId ex.exerciseName 0 ex.sets with
    | .error e => .error e
    | .ok l =>
      match flattenAll rest with
      | .error e => .error e
      | .ok tail => .ok (l ++ tail)

/-- Lines 316-329 of `handleSubmit`: when completion is marked and a
completion string is present, it must parse and must not be earlier than the
start; the result is the optional `completedAtISO` value. -/
def resolveCompletedAt (markCompleted : Bool) (completedAt : DateStr) (startMs : ℤ) : Except FormError (Option ℤ) :=
  if markCompleted && !(completedAt == DateStr.empty) then
    match dateMs completedAt with
    | none => .error .completedInvalid
    | some cMs =>
      if cMs < startMs then .error .completedBeforeStart
      else .ok (some cMs)
  else .ok none

/-- Lines 333-336 of `handleSubmit`: the duplicate back-to-back re-check of
the same completed-before-start invariant, on the already-converted ISO
values. -/
def doubleCheckCompleted (markCompleted : Bool) (completedAtISO : Option ℤ) (startMs : ℤ) : Except FormError Unit :=
  match completedAtISO with
  | some cMs =>
    if markCompleted && decide (cMs < startMs) then .error .completedBeforeStart
    else .ok ()
  | none => .ok ()

/-- Lines 338-353 of `handleSubmit`: duration resolution.  Explicit minutes
take priority and must be finite and positive; otherwise a completed workout
derives its duration from the timestamp difference, kept only if strictly
positive; otherwise the duration stays unset. -/
def resolveDuration (durationMinutes : JsStr) (markCompleted : Bool) (completedAtISO : Option ℤ) (startMs : ℤ) : Except FormError (Option ℤ) :=
  if durationMinutes ≠ JsStr.empty then
    match jsToNum durationMinutes with
    | none => .error .durationInvalid
    | some minutesValue =>
      if minutesValue ≤ 0 then .error .durationInvalid
      else .ok (some (jsRound (minutesValue * 60)))
  else
    match markCompleted, completedAtISO with
    | true, some cMs =>
      if 0 < jsRound (((cMs : ℚ) - (startMs : ℚ)) / 1000) then
        .ok (some (jsRound (((cMs : ℚ) - (startMs : ℚ)) / 1000)))
      else .ok none
    | _, _ => .ok none

/-- The full `handleSubmit` validation and payload assembly
(`WorkoutStartPage.tsx` lines 249-363).  A successful run returns the
payload passed to `workoutService.createWorkout`; a failed run returns the
first triggered form error and performs no create call. -/
def handleSubmit (s : SubmitState) : Except FormError Payload :=
  match s.routine with
  | none => .error .noRoutine
  | some routine =>
    if s.startedAt = DateStr.empty then .error .startRequired
    else if s.exercises = [] then .error .noExercises
    else
      match flattenAll s.exercises with
      | .error e => .error e
      | .ok flattenedSets =>
        if flattenedSets = [] then .error .noSetsRegistered
        else
          match dateMs s.startedAt with
          | none => .error .startInvalid
          | some startMs =>
            match resolveCompletedAt s.markCompleted s.completedAt startMs with
            | .error e => .error e
            | .ok completedAtISO =>
              match doubleCheckCompleted s.markCompleted completedAtISO startMs with
              | .error e => .error e
              | .ok _ =>
                match resolveDuration s.durationMinutes s.markCompleted completedAtISO startMs with
                | .error e => .error e
                | .ok durationSeconds =>
                  .ok
                    { routineId := routine.id
                      routineName := routine.name
                      startedAt := startMs
                      completedAt := completedAtISO
                      duration := durationSeconds
                      notes := s.notes
                      sets := flattenedSets }

/-- The default reps value a materialized set is seeded with:
`repRangeMin ?? repRangeMax ?? 10` (nullish coalescing, so `0` is kept). -/
def defaultReps (e : RoutineExercise) : ℤ :=
  e.repRangeMin.getD (e.repRangeMax.getD 10)

/-- Default set of the template materialization in `loadRoutine`
(lines 112-120): reps seeded from `repRangeMin ?? repRangeMax ?? 10`
(nullish coalescing, so `0` is kept), technique and rest copied from the
routine entry, weight empty. -/
def materializeSet (e : RoutineExercise) : WorkoutSetForm :=
  { weight := JsStr.empty
    reps := JsStr.num ((defaultReps e : ℤ) : ℚ)
    technique := e.technique
    restTime :=
      match e.restTime with
      | some r => JsStr.num (r : ℚ)
      | none => JsStr.empty }

/-- Template materialization of one routine entry (`loadRoutine`,
lines 108-121): `Array.from({length: exercise.sets}, ...)` clamps a
negative length to zero, hence `Int.toNat`. -/
def materializeExercise (e : RoutineExercise) : ExerciseWorkoutForm :=
  { exerciseId := e.exerciseId
    exerciseName := e.exerciseName
    targetRange := getTargetRange e
    sets := List.replicate e.sets.toNat (materializeSet e) }

/-- The exercise form list produced by `loadRoutine` (lines 107-122). -/
def loadRoutineExercises (r : Routine) : List ExerciseWorkoutForm :=
  r.exercises.map materializeExercise

/-- The component state right after `loadRoutine` succeeds and before any
edit: `startedAt` is initialised to the (valid) current date-time string,
`markCompleted` is false, `completedAt`, `durationMinutes` and `notes` are
empty (lines 86-90). -/
def initialFormState (r : Routine) (t : ℤ) : SubmitState :=
  { routine := some r
    exercises := loadRoutineExercises r
    startedAt := DateStr.valid t
    markCompleted := false
    completedAt := DateStr.empty
    durationMinutes := JsStr.empty
    notes := none }

/-- Applies `f` to the element at position `i`, the effect of the
`prev.map((exercise, exIdx) => exIdx !== i ? exercise : f exercise)`
pattern used by the set-editing handlers. -/
def mapAtIdx (f : α → α) : ℕ → List α → List α
  | _, [] => []
  | 0, x :: xs => f x :: xs
  | n + 1, x :: xs => x :: mapAtIdx f n xs

/-- The set appended by `handleAddSet` (lines 200-215): each field clones
the last existing set when there is one (weight always restarts empty), and
otherwise falls back to `routine?.exercises[exerciseIndex]` defaults — reps
to `repRangeMin ?? 10` (no `repRangeMax` fallback), technique to the entry's
technique (or `'normal'`), rest to the entry's rest time (or empty). -/
def addedSet (routine : Option Routine) (exerciseIndex : ℕ) (exercise : ExerciseWorkoutForm) : WorkoutSetForm :=
  match exercise.sets.getLast? with
  | some lastSet =>
    { weight := JsStr.empty
      reps := lastSet.reps
      technique := lastSet.technique
      restTime := lastSet.restTime }
  | none =>
    { weight := JsStr.empty
      reps := JsStr.num ((((routine.bind fun r => r.exercises[exerciseIndex]?).bind fun re => re.repRangeMin).getD 10 : ℤ) : ℚ)
      technique := ((routine.bind fun r => r.exercises[exerciseIndex]?).map fun re => re.technique).getD Technique.normal
      restTime :=
        match (routine.bind fun r => r.exercises[exerciseIndex]?).bind fun re => re.restTime with
        | some rt => JsStr.num (rt : ℚ)
        | none => JsStr.empty }

/-- `handleAddSet` (lines 193-219): appends one set to the chosen exercise,
leaving every other exercise untouched. -/
def handleAddSet (routine : Option Routine) (exerciseIndex : ℕ) (exercises : List ExerciseWorkoutForm) : List ExerciseWorkoutForm :=
  mapAtIdx (fun exercise => { exercise with sets := exercise.sets ++ [addedSet routine exerciseIndex exercise] }) exerciseIndex exercises

/-- Model of `exercise.sets.filter((_, idx) => idx !== setIndex)` in
`handleRemoveSet`, with `i` the index of the head of the remaining list. -/
def filterIdxNe (setIndex : ℕ) : ℕ → List WorkoutSetForm → List WorkoutSetForm
  | _, [] => []
  | i, x :: xs =>
    if i = setIndex then filterIdxNe setIndex (i + 1) xs
    else x :: filterIdxNe setIndex (i + 1) xs

/-- `handleRemoveSet` (lines 221-238): removes the set at `setIndex` from
the chosen exercise, refusing (no-op) when at most one set remains. -/
def handleRemoveSet (exerciseIndex setIndex : ℕ) (exercises : List ExerciseWorkoutForm) : List ExerciseWorkoutForm :=
  mapAtIdx
    (fun exercise =>
      if exercise.sets.length ≤ 1 then exercise
      else { exercise with sets := filterIdxNe setIndex 0 exercise.sets })
    exerciseIndex exercises

/-- A persisted workout set as rendered by `WorkoutDetailPage.tsx`. -/
structure WorkoutSet where
  exerciseId : ℤ
  exerciseName : String
  setNumber : ℤ
  weight : Option ℚ
  reps : ℤ
deriving DecidableEq, Repr

/-- One rendered group of `setsByExercise`. -/
structure ExerciseGroup where
  exerciseName : String
  sets : List WorkoutSet
deriving DecidableEq, Repr

/-- One step of the `workout.sets.forEach` loop of `setsByExercise`
(lines 117-127): a JavaScript `Map` keyed by exercise id preserves insertion
order, modelled as an association list; an existing entry gets the set
pushed, a new id is appended at the end. -/
def insertGrouped (acc : List (ℤ × ExerciseGroup)) (s : WorkoutSet) : List (ℤ × ExerciseGroup) :=
  if acc.any fun p => p.1 = s.exerciseId then
    acc.map fun p =>
      if p.1 = s.exerciseId then (p.1, { p.2 with sets := p.2.sets ++ [s] })
      else p
  else acc ++ [(s.exerciseId, { exerciseName := s.exerciseName, sets := [s] })]

/-- Stable insertion of one set into an already-sorted list, placing it
after all sets with a smaller-or-equal `setNumber`; together with
`sortBySetNumber` this models the stable ascending
`sort((a, b) => a.setNumber - b.setNumber)`. -/
def insertBySetNumber (s : WorkoutSet) : List WorkoutSet → List WorkoutSet
  | [] => [s]
  | t :: ts =>
    if t.setNumber ≤ s.setNumber then t :: insertBySetNumber s ts
    else s :: t :: ts

/-- Stable sort by ascending `setNumber` (the comparator
`a.setNumber - b.setNumber` of line 131). -/
def sortBySetNumber (l : List WorkoutSet) : List WorkoutSet :=
  l.foldl (fun acc s => insertBySetNumber s acc) []

/-- `setsByExercise` of `WorkoutDetailPage.tsx` (lines 114-134): group the
workout's sets by exercise id in first-seen order, then sort each group by
ascending set number. -/
def setsByExercise (sets : List WorkoutSet) : List ExerciseGroup :=
  (sets.foldl insertGrouped []).map fun p =>
    { exerciseName := p.2.exerciseName, sets := sortBySetNumber p.2.sets }

/-- Specification-side view of the per-set validation of `buildSet`: the
first failing check for one set form, `none` when the set passes. -/
def setCheck (sf : WorkoutSetForm) : Option FormError :=
  match jsToNum sf.reps with
  | none => some .repsAtLeastOne
  | some repsValue =>
    if repsValue < 1 then some .repsAtLeastOne
    else if sf.weight ≠ JsStr.empty ∧ jsToNum sf.weight = none then some .weightInvalid
    else if sf.restTime ≠ JsStr.empty ∧ jsToNum sf.restTime = none then some .restInvalid
    else none

/-- Specification-side view of the payload set built from a valid set form:
reps and rest are rounded to the nearest integer, weight is unrounded. -/
def mkOk (exId : ℤ) (exName : String) (index : ℕ) (sf : WorkoutSetForm) : PayloadSet :=
  { exerciseId := exId
    exerciseName := exName
    setNumber := index + 1
    weight := if sf.weight = JsStr.empty then none else jsToNum sf.weight
    reps := jsRound ((jsToNum sf.reps).getD 0)
    technique := sf.technique
    restTime := if sf.restTime = JsStr.empty then none else (jsToNum sf.restTime).map jsRound }

/-- Payload sets of one exercise with indices starting at `i`. -/
def builtSetsFrom (exId : ℤ) (exName : String) (i : ℕ) (sets : List WorkoutSetForm) : List PayloadSet :=
  (List.enumFrom i sets).map fun p => mkOk exId exName p.1 p.2

/-- Payload sets of one exercise: set numbers restart at 1. -/
def builtSets (ex : ExerciseWorkoutForm) : List PayloadSet :=
  builtSetsFrom ex.exerciseId ex.exerciseName 0 ex.sets

/-- The payload set produced by submitting the `j`-th (0-based) untouched
default set of a routine entry. -/
def defaultPayloadSet (e : RoutineExercise) (j : ℕ) : PayloadSet :=
  { exerciseId := e.exerciseId
    exerciseName := e.exerciseName
    setNumber := j + 1
    weight := none
    reps := defaultReps e
    technique := e.technique
    restTime := e.restTime }

/-- The payload sets produced by submitting a routine entry untouched. -/
def expectedDefaultSets (e : RoutineExercise) : List PayloadSet :=
  (List.range e.sets.toNat).map (defaultPayloadSet e)

/-- Keys of a list in order of first appearance. -/
def firstSeenKeys (l : List ℤ) : List ℤ :=
  l.foldl (fun acc k => if k ∈ acc then acc else acc ++ [k]) []

/-- Specification-side group for one exercise id: the name of its first set
and all its sets in original order. -/
def groupFor (sets : List WorkoutSet) (k : ℤ) : ℤ × ExerciseGroup :=
  (k,
    { exerciseName := ((sets.find? fun s => s.exerciseId = k).map fun s => s.exerciseName).getD ""
      sets := sets.filter fun s => s.exerciseId = k })

/-- Specification-side grouping: one group per exercise id in first-seen
order, holding that id's sets in original order. -/
def groupedSpec (sets : List WorkoutSet) : List (ℤ × ExerciseGroup) :=
  (firstSeenKeys (sets.map fun s => s.exerciseId)).map (groupFor sets)

/-- A routine whose single entry has `repRangeMin = 0`: its materialized
default reps string is `"0"`, which submission rejects. -/
def routineC1 : Routine :=
  ⟨5, "Rutina", [⟨1, "Press", 1, some 0, none, .normal, none⟩]⟩

/-- Routine of the end-to-end example: one exercise, 3 target sets, rep
range 8-12, technique normal. -/
def routineC1w : Routine :=
  ⟨7, "Empuje", [⟨1, "Press de banca", 3, some 8, some 12, .normal, some 90⟩]⟩

/-- A routine carrying only the id and name the payload copies. -/
def routinePlain : Routine := ⟨5, "Rutina", []⟩

/-- One valid one-set exercise form. -/
def exerciseFormValid : ExerciseWorkoutForm :=
  ⟨1, "Press", none, [⟨JsStr.empty, JsStr.num 8, .normal, JsStr.empty⟩]⟩

/-- Completed workout, start at epoch ms 0, completion 45 minutes later, no
explicit duration input. -/
def stateC2a : SubmitState :=
  { routine := some routinePlain
    exercises := [exerciseFormValid]
    startedAt := DateStr.valid 0
    markCompleted := true
    completedAt := DateStr.valid 2700000
    durationMinutes := JsStr.empty
    notes := none }

/-- Same as `stateC2a` with explicit duration input "30" minutes. -/
def stateC2b : SubmitState :=
  { stateC2a with durationMinutes := JsStr.num 30 }

/-- Same as `stateC2a` with a non-numeric duration input. -/
def stateC2c : SubmitState :=
  { stateC2a with durationMinutes := JsStr.nan }

/-- One-set exercise list whose reps input is the given string. -/
def exsWithReps (r : JsStr) : List ExerciseWorkoutForm :=
  [⟨1, "Press", none, [⟨JsStr.empty, r, .normal, JsStr.empty⟩]⟩]

/-- Completed workout whose completion (ms 0) precedes its start (ms 1000). -/
def stateC4 : SubmitState :=
  { routine := some routinePlain
    exercises := [exerciseFormValid]
    startedAt := DateStr.valid 1000
    markCompleted := true
    completedAt := DateStr.valid 0
    durationMinutes := JsStr.empty
    notes := none }

/-- Non-empty unparseable start date together with an unparseable reps
input. -/
def stateC5 : SubmitState :=
  { routine := some routinePlain
    exercises := exsWithReps JsStr.nan
    startedAt := DateStr.invalid
    markCompleted := false
    completedAt := DateStr.empty
    durationMinutes := JsStr.empty
    notes := none }

/-- Non-empty unparseable start date with all sets valid. -/
def stateC5w : SubmitState :=
  { stateC5 with exercises := exsWithReps (JsStr.num 8) }

/-- A set with negative weight "-20" and negative rest "-5". -/
def stateC6 : SubmitState :=
  { routine := some routinePlain
    exercises := [⟨1, "Press", none, [⟨JsStr.num (-20), JsStr.num 5, .normal, JsStr.num (-5)⟩]⟩]
    startedAt := DateStr.valid 0
    markCompleted := false
    completedAt := DateStr.empty
    durationMinutes := JsStr.empty
    notes := none }

/-- The payload `stateC6` assembles. -/
def payloadC6 : Payload :=
  { routineId := 5
    routineName := "Rutina"
    startedAt := 0
    completedAt := none
    duration := none
    notes := none
    sets := [⟨1, "Press", 1, some (-20), 5, .normal, some (-5)⟩] }

/-- Routine entry with `repRangeMin` absent and `repRangeMax = 12`. -/
def routineC7 : Routine :=
  ⟨9, "Pierna", [⟨2, "Sentadilla", 3, none, some 12, .dropset, some 90⟩]⟩

/-- Exercise form with an empty set list for the `routineC7` entry. -/
def exerciseFormC7 : ExerciseWorkoutForm := ⟨2, "Sentadilla", none, []⟩

/-- Exercise form with one fully edited set. -/
def exerciseFormC7b : ExerciseWorkoutForm :=
  ⟨2, "Sentadilla", none, [⟨JsStr.num 100, JsStr.num 5, .failure, JsStr.num 60⟩]⟩

/-- Two-exercise form state: two sets on the first exercise, one set on the
second. -/
def exercisesC8 : List ExerciseWorkoutForm :=
  [⟨1, "a", none, [⟨JsStr.empty, JsStr.num 8, .normal, JsStr.empty⟩, ⟨JsStr.num 50, JsStr.num 6, .dropset, JsStr.num 60⟩]⟩,
   ⟨2, "b", none, [⟨JsStr.empty, JsStr.num 10, .normal, JsStr.empty⟩]⟩]

/-- The grouping example: sets (A,2), (B,1), (A,1). -/
def setsC9 : List WorkoutSet :=
  [⟨1, "A", 2, none, 8⟩, ⟨2, "B", 1, none, 8⟩, ⟨1, "A", 1, none, 8⟩]

/-- Same as `stateC5` but with an empty start date string. -/
def stateC5e : SubmitState :=
  { stateC5 with startedAt := DateStr.empty }

/-- The payload `stateC2a` assembles: duration derived from the timestamps. -/
def payloadC2a : Payload :=
  { routineId := 5
    routineName := "Rutina"
    startedAt := 0
    completedAt := some 2700000
    duration := some 2700
    notes := none
    sets := [⟨1, "Press", 1, none, 8, .normal, none⟩] }

/-- The payload `stateC2b` assembles: duration from the explicit minutes. -/
def payloadC2b : Payload :=
  { payloadC2a with duration := some 1800 }

/-- Routine entry whose `repRangeMin` is present but equal to `0`. -/
def exerciseC10 : RoutineExercise := ⟨3, "Curl", 3, some 0, none, .normal, none⟩

theorem jsRound_eq_floor (q : ℚ) : jsRound q = ⌊q + 1 / 2⌋ := by
  have hden : ((q.den : ℚ)) ≠ 0 := by positivity
  have key : q + 1 / 2 = ((2 * q.num + (q.den : ℤ) : ℤ) : ℚ) / (((2 * q.den : ℕ)) : ℚ) := by
    conv_lhs => rw [← Rat.num_div_den q]
    field_simp
    ring
  rw [jsRound, key, Rat.floor_intCast_div_natCast]
  push_cast
  rfl

theorem jsRound_intCast (n : ℤ) : jsRound ((n : ℚ)) = n := by
  rw [jsRound, Rat.num_intCast, Rat.den_intCast]
  omega

theorem buildSet_eq (exId : ℤ) (exName : String) (index : ℕ) (sf : WorkoutSetForm) :
    buildSet exId exName index sf =
      (match setCheck sf with
        | some e => Except.error e
        | none => Except.ok (mkOk exId exName index sf)) := by
  rw [buildSet, setCheck, mkOk]
  rcases h : jsToNum sf.reps with _ | r
  · rfl
  · simp only [Option.getD_some, h]
    split
    · rfl
    · split
      · rfl
      · split
        · rfl
        · rfl

theorem flattenSets_eq (exId : ℤ) (exName : String) (i : ℕ) (sets : List WorkoutSetForm) :
    flattenSets exId exName i sets =
      (match sets.findSome? setCheck with
        | some e => Except.error e
        | none => Except.ok (builtSetsFrom exId exName i sets)) := by
  induction sets generalizing i with
  | nil => rfl
  | cons sf rest ih =>
    rw [flattenSets, buildSet_eq, List.findSome?_cons]
    rcases h : setCheck sf with _ | e
    · rw [ih (i + 1)]
      rcases h2 : rest.findSome? setCheck with _ | e2
      · simp [builtSetsFrom, List.enumFrom_cons]
      · simp
    · simp

theorem flattenAll_eq (exs : List ExerciseWorkoutForm) :
    flattenAll exs =
      (match exs.findSome? (fun ex => ex.sets.findSome? setCheck) with
        | some e => Except.error e
        | none => Except.ok ((exs.map builtSets).flatten)) := by
  induction exs with
  | nil => rfl
  | cons ex rest ih =>
    rw [flattenAll, flattenSets_eq, List.findSome?_cons]
    rcases h : ex.sets.findSome? setCheck with _ | e
    · rw [ih]
      rcases h2 : rest.findSome? (fun ex => ex.sets.findSome? setCheck) with _ | e2
      · simp [h2, builtSets]
      · simp [h2]
    · simp

theorem findSome?_flatten {α β : Type} (f : α → Option β) (L : List (List α)) :
    L.flatten.findSome? f = L.findSome? fun l => l.findSome? f := by
  induction L with
  | nil => rfl
  | cons l rest ih =>
    rw [List.flatten_cons, List.findSome?_append, ih, List.findSome?_cons]
    rcases h : l.findSome? f with _ | e
    · simp [Option.or]
    · simp [Option.or]

theorem setCheck_eq_none_iff (sf : WorkoutSetForm) :
    setCheck sf = none ↔
      ((∃ r, jsToNum sf.reps = some r ∧ 1 ≤ r) ∧
        (sf.weight ≠ JsStr.empty → (jsToNum sf.weight).isSome) ∧
        (sf.restTime ≠ JsStr.empty → (jsToNum sf.restTime).isSome)) := by
  rcases h : jsToNum sf.reps with _ | r
  · simp [setCheck, h]
  · simp only [setCheck, h]
    constructor
    · intro hc
      by_cases h1 : r < 1
      · rw [if_pos h1] at hc
        exact absurd hc (by simp)
      by_cases h2 : sf.weight ≠ JsStr.empty ∧ jsToNum sf.weight = none
      · rw [if_neg h1, if_pos h2] at hc
        exact absurd hc (by simp)
      by_cases h3 : sf.restTime ≠ JsStr.empty ∧ jsToNum sf.restTime = none
      · rw [if_neg h1, if_neg h2, if_pos h3] at hc
        exact absurd hc (by simp)
      refine ⟨⟨r, rfl, not_lt.mp h1⟩, fun hw => ?_, fun hrt => ?_⟩
      · rcases hopt : jsToNum sf.weight with _ | w
        · exact absurd ⟨hw, hopt⟩ h2
        · simp
      · rcases hopt : jsToNum sf.restTime with _ | w
        · exact absurd ⟨hrt, hopt⟩ h3
        · simp
    · rintro ⟨⟨r2, hr2, hge⟩, hw, hrt⟩
      obtain rfl : r2 = r := by simpa using hr2.symm
      have h2 : ¬(sf.weight ≠ JsStr.empty ∧ jsToNum sf.weight = none) := by
        rintro ⟨hne, hniz⟩
        have hs := hw hne
        rw [hniz] at hs
        exact absurd hs (by simp)
      have h3 : ¬(sf.restTime ≠ JsStr.empty ∧ jsToNum sf.restTime = none) := by
        rintro ⟨hne, hniz⟩
        have hs := hrt hne
        rw [hniz] at hs
        exact absurd hs (by simp)
      rw [if_neg (not_lt.mpr hge), if_neg h2, if_neg h3]

theorem resolveCompletedAt_ok_doubleCheck (m : Bool) (c : DateStr) (sMs : ℤ) (cOpt : Option ℤ)
    (h : resolveCompletedAt m c sMs = .ok cOpt) :
    doubleCheckCompleted m cOpt sMs = .ok () := by
  simp only [resolveCompletedAt] at h
  split at h
  case isTrue hcond =>
    split at h
    case h_1 => exact absurd h (by simp)
    case h_2 cMs heq =>
      split at h
      case isTrue => exact absurd h (by simp)
      case isFalse hlt =>
        obtain rfl : cOpt = some cMs := by simpa using h.symm
        simp [doubleCheckCompleted, hlt]
  case isFalse hcond =>
    obtain rfl : cOpt = none := by simpa using h.symm
    simp [doubleCheckCompleted]

theorem resolveCompletedAt_ok_true (c : DateStr) (sMs : ℤ) (cOpt : Option ℤ)
    (hcne : c ≠ DateStr.empty) (h : resolveCompletedAt true c sMs = .ok cOpt) :
    ∃ cMs, dateMs c = some cMs ∧ cOpt = some cMs ∧ ¬cMs < sMs := by
  simp only [resolveCompletedAt] at h
  have hb : (true && !(c == DateStr.empty)) = true := by
    simp [hcne]
  rw [if_pos hb] at h
  split at h
  case h_1 => exact absurd h (by simp)
  case h_2 cMs heq =>
    split at h
    case isTrue => exact absurd h (by simp)
    case isFalse hlt =>
      obtain rfl : cOpt = some cMs := by simpa using h.symm
      exact ⟨cMs, heq, rfl, hlt⟩

theorem resolveCompletedAt_false (c : DateStr) (sMs : ℤ) :
    resolveCompletedAt false c sMs = .ok none := by
  simp [resolveCompletedAt]

theorem resolveCompletedAt_empty (m : Bool) (sMs : ℤ) :
    resolveCompletedAt m DateStr.empty sMs = .ok none := by
  simp [resolveCompletedAt]

theorem resolveDuration_none (m : Bool) (cOpt : Option ℤ) (sMs : ℤ)
    (h : m = false ∨ cOpt = none) :
    resolveDuration JsStr.empty m cOpt sMs = .ok none := by
  rcases h with rfl | rfl
  · rcases cOpt with _ | c <;> simp [resolveDuration]
  · rcases m with _ | _ <;> simp [resolveDuration]

theorem handleSubmit_ok_elim (s : SubmitState) (p : Payload) (h : handleSubmit s = .ok p) :
    ∃ routine flat startMs cOpt dur,
      s.routine = some routine ∧
      s.startedAt ≠ DateStr.empty ∧
      s.exercises ≠ [] ∧
      flattenAll s.exercises = .ok flat ∧
      flat ≠ [] ∧
      dateMs s.startedAt = some startMs ∧
      resolveCompletedAt s.markCompleted s.completedAt startMs = .ok cOpt ∧
      resolveDuration s.durationMinutes s.markCompleted cOpt startMs = .ok dur ∧
      p = { routineId := routine.id, routineName := routine.name, startedAt := startMs,
            completedAt := cOpt, duration := dur, notes := s.notes, sets := flat } := by
  rcases hr : s.routine with _ | routine
  · simp [handleSubmit, hr] at h
  by_cases hse : s.startedAt = DateStr.empty
  · simp [handleSubmit, hr, hse] at h
  by_cases hee : s.exercises = []
  · simp [handleSubmit, hr, hse, hee] at h
  rcases hf : flattenAll s.exercises with e | flat
  · simp [handleSubmit, hr, hse, hee, hf] at h
  by_cases hfe : flat = []
  · simp [handleSubmit, hr, hse, hee, hf, hfe] at h
  rcases hd : dateMs s.startedAt with _ | startMs
  · simp [handleSubmit, hr, hse, hee, hf, hfe, hd] at h
  rcases hc : resolveCompletedAt s.markCompleted s.completedAt startMs with e | cOpt
  · simp [handleSubmit, hr, hse, hee, hf, hfe, hd, hc] at h
  rcases hdur : resolveDuration s.durationMinutes s.markCompleted cOpt startMs with e | dur
  · simp [handleSubmit, hr, hse, hee, hf, hfe, hd, hc, hdur,
      resolveCompletedAt_ok_doubleCheck _ _ _ _ hc] at h
  · refine ⟨routine, flat, startMs, cOpt, dur, rfl, hse, hee, rfl, hfe, rfl, hc, hdur, ?_⟩
    simp [handleSubmit, hr, hse, hee, hf, hfe, hd, hc, hdur,
      resolveCompletedAt_ok_doubleCheck _ _ _ _ hc] at h
    exact h.symm

theorem handleSubmit_ok_intro (s : SubmitState) (routine : Routine) (flat : List PayloadSet)
    (startMs : ℤ) (cOpt : Option ℤ) (dur : Option ℤ)
    (hr : s.routine = some routine) (hse : s.startedAt ≠ DateStr.empty) (hee : s.exercises ≠ [])
    (hf : flattenAll s.exercises = .ok flat) (hfe : flat ≠ [])
    (hd : dateMs s.startedAt = some startMs)
    (hc : resolveCompletedAt s.markCompleted s.completedAt startMs = .ok cOpt)
    (hdur : resolveDuration s.durationMinutes s.markCompleted cOpt startMs = .ok dur) :
    handleSubmit s = .ok
      { routineId := routine.id, routineName := routine.name, startedAt := startMs,
        completedAt := cOpt, duration := dur, notes := s.notes, sets := flat } := by
  simp [handleSubmit, hr, hse, hee, hf, hfe, hd, hc, hdur,
    resolveCompletedAt_ok_doubleCheck _ _ _ _ hc]

theorem resolveDuration_completed (cMs sMs : ℤ) :
    resolveDuration JsStr.empty true (some cMs) sMs =
      .ok (if 0 < jsRound (((cMs : ℚ) - (sMs : ℚ)) / 1000)
        then some (jsRound (((cMs : ℚ) - (sMs : ℚ)) / 1000)) else none) := by
  simp [resolveDuration]
  split_ifs <;> rfl

/-- C10 (amended): the target-range label follows the claimed shape, except
that a bound is treated as present only when it is non-zero (JavaScript
truthiness): "min-max repeticiones" for two distinct non-zero bounds, "N
repeticiones" when they are equal and non-zero, "≥ min" / "≤ max" when
exactly one non-zero bound exists, absent when no non-zero bound exists. -/
theorem c10_target_range_label (e : RoutineExercise) :
    (∀ a b, e.repRangeMin = some a → e.repRangeMax = some b → a ≠ 0 → b ≠ 0 → a ≠ b →
      getTargetRange e = some (toString a ++ "-" ++ toString b ++ " repeticiones")) ∧
    (∀ a, e.repRangeMin = some a → e.repRangeMax = some a → a ≠ 0 →
      getTargetRange e = some (toString a ++ " repeticiones")) ∧
    (∀ a, e.repRangeMin = some a → a ≠ 0 → (e.repRangeMax = none ∨ e.repRangeMax = some 0) →
      getTargetRange e = some ("≥ " ++ toString a ++ " repeticiones")) ∧
    (∀ b, e.repRangeMax = some b → b ≠ 0 → (e.repRangeMin = none ∨ e.repRangeMin = some 0) →
      getTargetRange e = some ("≤ " ++ toString b ++ " repeticiones")) ∧
    ((e.repRangeMin = none ∨ e.repRangeMin = some 0) →
      (e.repRangeMax = none ∨ e.repRangeMax = some 0) →
      getTargetRange e = none) := by
  refine ⟨?_, ?_, ?_, ?_, ?_⟩
  · intro a b hmin hmax ha hb hab
    simp [getTargetRange, truthy, hmin, hmax, ha, hb, hab]
  · intro a hmin hmax ha
    simp [getTargetRange, truthy, hmin, hmax, ha]
  · intro a hmin ha hmax
    rcases hmax with h0 | h0 <;> simp [getTargetRange, truthy, hmin, h0, ha]
  · intro b hmax hb hmin
    rcases hmin with h0 | h0 <;> simp [getTargetRange, truthy, hmax, h0, hb]
  · intro hmin hmax
    rcases hmin with h0 | h0 <;> rcases hmax with h1 | h1 <;>
      simp [getTargetRange, truthy, h0, h1]

/-- C10 counterexample: a rep-range minimum that exists but equals 0 does
not count as present — the label is absent, not "≥ 0 repeticiones". -/
theorem c10_target_range_counterexample :
    exerciseC10.repRangeMin = some 0 ∧ getTargetRange exerciseC10 = none := by
  exact ⟨by decide, by decide⟩

/-- C3: per-set validation of the flattening.  The flattening fails exactly
with the per-set error of the first offending set in flattened order (reps
must parse finite and ≥ 1, a non-empty weight must parse finite, a non-empty
rest must parse finite), and on success the payload carries rounded reps and
rest and unrounded weight, per `builtSets`. -/
theorem c3_per_set_validation (exs : List ExerciseWorkoutForm) :
    (∀ e, ((exs.map fun ex => ex.sets).flatten.findSome? setCheck = some e →
      flattenAll exs = Except.error e)) ∧
    (((exs.map fun ex => ex.sets).flatten.findSome? setCheck = none →
      flattenAll exs = Except.ok ((exs.map builtSets).flatten))) ∧
    (∀ e, flattenAll exs = Except.error e →
      (exs.map fun ex => ex.sets).flatten.findSome? setCheck = some e) ∧
    (∀ l, flattenAll exs = Except.ok l → l = (exs.map builtSets).flatten) ∧
    (∀ sf : WorkoutSetForm, setCheck sf = none ↔
      ((∃ r, jsToNum sf.reps = some r ∧ 1 ≤ r) ∧
        (sf.weight ≠ JsStr.empty → (jsToNum sf.weight).isSome) ∧
        (sf.restTime ≠ JsStr.empty → (jsToNum sf.restTime).isSome))) := by
  have hkey : (exs.map fun ex => ex.sets).flatten.findSome? setCheck =
      exs.findSome? fun ex => ex.sets.findSome? setCheck := by
    rw [findSome?_flatten, List.findSome?_map]
    rfl
  refine ⟨?_, ?_, ?_, ?_, setCheck_eq_none_iff⟩
  · intro e he
    rw [hkey] at he
    rw [flattenAll_eq, he]
  · intro he
    rw [hkey] at he
    rw [flattenAll_eq, he]
  · intro e he
    rw [flattenAll_eq] at he
    rw [hkey]
    rcases hfs : exs.findSome? (fun ex => ex.sets.findSome? setCheck) with _ | e2
    · rw [hfs] at he
      exact absurd he (by simp)
    · rw [hfs] at he
      rw [hfs]
      simpa using he
  · intro l hl
    rw [flattenAll_eq] at hl
    rcases hfs : exs.findSome? (fun ex => ex.sets.findSome? setCheck) with _ | e2
    · rw [hfs] at hl
      simpa using hl.symm
    · rw [hfs] at hl
      exact absurd hl (by simp)

/-- C3 witness: reps "0", "-1" and "abc" are rejected with the per-set reps
error; reps "5" (equally "5.0") yields stored reps 5. -/
theorem c3_per_set_validation_witness :
    flattenAll (exsWithReps (JsStr.num 0)) = Except.error FormError.repsAtLeastOne ∧
    flattenAll (exsWithReps (JsStr.num (-1))) = Except.error FormError.repsAtLeastOne ∧
    flattenAll (exsWithReps JsStr.nan) = Except.error FormError.repsAtLeastOne ∧
    flattenAll (exsWithReps (JsStr.num 5)) = Except.ok [⟨1, "Press", 1, none, 5, .normal, none⟩] := by
  refine ⟨(c3_per_set_validation _).1 _ (by decide), (c3_per_set_validation _).1 _ (by decide),
    (c3_per_set_validation _).1 _ (by decide), ?_⟩
  have h := (c3_per_set_validation (exsWithReps (JsStr.num 5))).2.1 (by decide)
  rw [h]
  decide

/-- C5 (amended): the presence of the start timestamp is checked before any
per-set check (an empty start string always fails with the start-required
message), but its date-parse validity is checked only after the per-set
checks: a non-empty unparseable start date yields the invalid-start-date
message only when every flattened set passes its checks (and at least one
set exists). -/
theorem c5_start_date_checks (s : SubmitState) :
    (∀ r, s.routine = some r → s.startedAt = DateStr.empty →
      handleSubmit s = Except.error FormError.startRequired) ∧
    (∀ r l, s.routine = some r → s.startedAt = DateStr.invalid →
      flattenAll s.exercises = Except.ok l → l ≠ [] →
      handleSubmit s = Except.error FormError.startInvalid) := by
  constructor
  · intro r hr hse
    simp [handleSubmit, hr, hse]
  · intro r l hr hsi hf hl
    have hee : s.exercises ≠ [] := by
      intro h0
      rw [h0] at hf
      have : l = [] := by simpa [flattenAll] using hf.symm
      exact hl this
    simp [handleSubmit, hr, hsi, hee, hf, hl, dateMs]

/-- C5 counterexample: with a non-empty unparseable start date and a set
whose reps do not parse, submission fails with the per-set reps message,
not the invalid-start-date message the claim requires. -/
theorem c5_start_date_counterexample :
    stateC5.startedAt = DateStr.invalid ∧
    handleSubmit stateC5 = Except.error FormError.repsAtLeastOne ∧
    FormError.repsAtLeastOne ≠ FormError.startInvalid := by
  exact ⟨by decide, by decide, by decide⟩

/-- C5 witness: both amended branches at concrete states. -/
theorem c5_start_date_checks_witness :
    handleSubmit stateC5e = Except.error FormError.startRequired ∧
    handleSubmit stateC5w = Except.error FormError.startInvalid := by
  refine ⟨(c5_start_date_checks stateC5e).1 routinePlain (by decide) (by decide), ?_⟩
  exact (c5_start_date_checks stateC5w).2 routinePlain
    [⟨1, "Press", 1, none, 8, .normal, none⟩] (by decide) (by decide) (by decide) (by decide)

/-- C4: whenever completion is marked, both timestamps parse as valid
dates, and the completion instant is strictly earlier than the start
instant, the submission is rejected: no payload is assembled and no create
call is made. -/
theorem c4_completed_before_start_rejected (s : SubmitState) (ts tc : ℤ)
    (hm : s.markCompleted = true) (hs : s.startedAt = DateStr.valid ts)
    (hc : s.completedAt = DateStr.valid tc) (hlt : tc < ts) :
    (handleSubmit s).isOk = false := by
  rcases hh : handleSubmit s with e | p
  · rfl
  · exfalso
    obtain ⟨routine, flat, startMs, cOpt, dur, hr, hse, hee, hf, hfe, hd, hca, hdur, hp⟩ :=
      handleSubmit_ok_elim s p hh
    rw [hs] at hd
    have hts : startMs = ts := by
      simpa [dateMs] using hd.symm
    subst hts
    rw [hm, hc] at hca
    obtain ⟨cMs, hcm, -, hnlt⟩ := resolveCompletedAt_ok_true _ _ _ (by simp) hca
    have hct : cMs = tc := by
      simpa [dateMs] using hcm.symm
    subst hct
    exact hnlt hlt

/-- C4 witness: a concrete completed workout whose completion (epoch ms 0)
precedes its start (epoch ms 1000) is rejected. -/
theorem c4_completed_before_start_witness :
    (handleSubmit stateC4).isOk = false :=
  c4_completed_before_start_rejected stateC4 1000 0 (by decide) (by decide) (by decide) (by decide)

/-- C6 (amended): in every successfully assembled payload, each set's
weight and rest time come from a successful finite parse of that set's form
fields — the weight stored unrounded, the rest time rounded to an integer —
but the validation does not require them to be non-negative. -/
theorem c6_payload_weight_rest (s : SubmitState) (p : Payload)
    (h : handleSubmit s = Except.ok p) :
    ∀ ps ∈ p.sets, ∃ ex ∈ s.exercises, ∃ sf ∈ ex.sets,
      ps.weight = (if sf.weight = JsStr.empty then none else jsToNum sf.weight) ∧
      ps.restTime = (if sf.restTime = JsStr.empty then none else (jsToNum sf.restTime).map jsRound) ∧
      (sf.weight ≠ JsStr.empty → (jsToNum sf.weight).isSome) ∧
      (sf.restTime ≠ JsStr.empty → (jsToNum sf.restTime).isSome) := by
  obtain ⟨routine, flat, startMs, cOpt, dur, hr, hse, hee, hf, hfe, hd, hc, hdur, hp⟩ :=
    handleSubmit_ok_elim s p h
  subst hp
  intro ps hps
  simp only at hps
  rw [flattenAll_eq] at hf
  split at hf
  case h_1 e heq => exact absurd hf (by simp)
  case h_2 heq =>
    have hflat : flat = (s.exercises.map builtSets).flatten := by
      simpa using hf.symm
    subst hflat
    rw [List.mem_flatten] at hps
    obtain ⟨l, hl, hpsl⟩ := hps
    obtain ⟨ex, hex, rfl⟩ := List.mem_map.mp hl
    rw [builtSets, builtSetsFrom] at hpsl
    obtain ⟨pr, hpr, rfl⟩ := List.mem_map.mp hpsl
    obtain ⟨i, sf⟩ := pr
    have hsf : sf ∈ ex.sets := by
      obtain ⟨-, hlt2, hx⟩ := List.mem_enumFrom hpr
      rw [hx]
      exact List.getElem_mem _
    have hchk : setCheck sf = none := by
      have hone : ex.sets.findSome? setCheck = none := by
        have := List.findSome?_eq_none_iff.mp heq ex hex
        simpa using this
      have := List.findSome?_eq_none_iff.mp hone sf hsf
      exact this
    obtain ⟨-, hw, hrt⟩ := (setCheck_eq_none_iff sf).mp hchk
    exact ⟨ex, hex, sf, hsf, rfl, rfl, hw, hrt⟩

/-- C6 counterexample: weight "-20" and rest "-5" pass validation — the
assembled payload contains a negative weight and a negative rest time. -/
theorem c6_negative_values_counterexample :
    handleSubmit stateC6 = Except.ok payloadC6 ∧
    (∃ ps ∈ payloadC6.sets,
      (∃ w, ps.weight = some w ∧ w < 0) ∧ (∃ rt, ps.restTime = some rt ∧ rt < 0)) := by
  constructor
  · decide
  · exact ⟨⟨1, "Press", 1, some (-20), 5, .normal, some (-5)⟩, by decide,
      ⟨-20, by decide, by decide⟩, ⟨-5, by decide, by decide⟩⟩

/-- C6 witness: the amended characterization applied to the concrete
negative-values payload. -/
theorem c6_payload_weight_rest_witness :
    ∃ ex ∈ stateC6.exercises,
      ∃ sf ∈ ex.sets,
        (some (-20) : Option ℚ) = (if sf.weight = JsStr.empty then none else jsToNum sf.weight) ∧
        (some (-5) : Option ℤ) = (if sf.restTime = JsStr.empty then none else (jsToNum sf.restTime).map jsRound) ∧
        (sf.weight ≠ JsStr.empty → (jsToNum sf.weight).isSome) ∧
        (sf.restTime ≠ JsStr.empty → (jsToNum sf.restTime).isSome) :=
  c6_payload_weight_rest stateC6 payloadC6 (by decide)
    ⟨1, "Press", 1, some (-20), 5, .normal, some (-5)⟩ (by decide)

/-- C2: duration resolution follows the strict priority order.  For every
successful submission: a non-empty minutes input parses to a positive finite
value and the duration is `round(minutes * 60)` seconds; otherwise a
completed workout with a completion timestamp gets
`round((completedAt - startedAt) / 1000)` seconds, recorded only when
strictly positive; otherwise the duration is unset.  A non-empty minutes
input that does not parse to a finite value strictly greater than 0 makes
the whole submission fail. -/
theorem c2_duration_resolution (s : SubmitState) :
    (∀ p, handleSubmit s = Except.ok p →
      ((s.durationMinutes ≠ JsStr.empty →
          ∃ m, jsToNum s.durationMinutes = some m ∧ 0 < m ∧
            p.duration = some (jsRound (m * 60))) ∧
        (s.durationMinutes = JsStr.empty → s.markCompleted = true →
          s.completedAt ≠ DateStr.empty →
          ∃ sMs cMs, dateMs s.startedAt = some sMs ∧ dateMs s.completedAt = some cMs ∧
            p.duration = (if 0 < jsRound (((cMs : ℚ) - (sMs : ℚ)) / 1000)
              then some (jsRound (((cMs : ℚ) - (sMs : ℚ)) / 1000)) else none)) ∧
        (s.durationMinutes = JsStr.empty →
          (s.markCompleted = false ∨ s.completedAt = DateStr.empty) →
          p.duration = none))) ∧
    (s.durationMinutes ≠ JsStr.empty →
      (∀ m, jsToNum s.durationMinutes = some m → m ≤ 0) →
      ∀ p, handleSubmit s ≠ Except.ok p) := by
  constructor
  · intro p h
    obtain ⟨routine, flat, startMs, cOpt, dur, hr, hse, hee, hf, hfe, hd, hc, hdur, hp⟩ :=
      handleSubmit_ok_elim s p h
    have hpd : p.duration = dur := by rw [hp]
    refine ⟨?_, ?_, ?_⟩
    · intro hne
      unfold resolveDuration at hdur
      rw [if_pos hne] at hdur
      split at hdur
      case h_1 heq => exact absurd hdur (by simp)
      case h_2 mv heq =>
        split at hdur
        case isTrue => exact absurd hdur (by simp)
        case isFalse hpos =>
          obtain rfl : dur = some (jsRound (mv * 60)) := by simpa using hdur.symm
          exact ⟨mv, heq, not_le.mp hpos, hpd⟩
    · intro hemp hm hcne
      rw [hm] at hc
      obtain ⟨cMs, hcm, hco, hnlt⟩ := resolveCompletedAt_ok_true s.completedAt startMs cOpt hcne hc
      refine ⟨startMs, cMs, hd, hcm, ?_⟩
      rw [hemp, hm, hco, resolveDuration_completed] at hdur
      obtain rfl : dur = (if 0 < jsRound (((cMs : ℚ) - (startMs : ℚ)) / 1000)
          then some (jsRound (((cMs : ℚ) - (startMs : ℚ)) / 1000)) else none) := by
        simpa using hdur.symm
      exact hpd
    · intro hemp hor
      have hco : cOpt = none := by
        rcases hor with hm0 | hce
        · rw [hm0, resolveCompletedAt_false] at hc
          simpa using hc.symm
        · rw [hce, resolveCompletedAt_empty] at hc
          simpa using hc.symm
      rw [hemp, hco, resolveDuration_none s.markCompleted none startMs (Or.inr rfl)] at hdur
      obtain rfl : dur = none := by simpa using hdur.symm
      exact hpd
  · intro hne hle p h
    obtain ⟨routine, flat, startMs, cOpt, dur, hr, hse, hee, hf, hfe, hd, hc, hdur, hp⟩ :=
      handleSubmit_ok_elim s p h
    unfold resolveDuration at hdur
    rw [if_pos hne] at hdur
    split at hdur
    case h_1 heq => exact absurd hdur (by simp)
    case h_2 mv heq =>
      rw [if_pos (hle mv heq)] at hdur
      exact absurd hdur (by simp)

/-- C2 witness: start 10:00, completion 10:45 (epoch ms 0 and 2700000) with
no explicit minutes yields duration 2700 s; the same timestamps with
explicit minutes "30" yield 1800 s; a non-parsing minutes input makes the
submission fail. -/
theorem c2_duration_resolution_witness :
    (handleSubmit stateC2c).isOk = false ∧
    handleSubmit stateC2a = Except.ok payloadC2a ∧
    payloadC2a.duration = some 2700 ∧
    handleSubmit stateC2b = Except.ok payloadC2b ∧
    payloadC2b.duration = some 1800 := by
  have hreject := (c2_duration_resolution stateC2c).2 (by decide)
    (by intro m hm; simp [stateC2c, stateC2a, jsToNum] at hm)
  refine ⟨?_, ?_, by decide, ?_, by decide⟩
  · rcases hh : handleSubmit stateC2c with e | p
    · rfl
    · exact absurd hh (hreject p)
  · have h4 : resolveDuration stateC2a.durationMinutes stateC2a.markCompleted
        (some 2700000) 0 = .ok (some 2700) := by
      show resolveDuration JsStr.empty true (some 2700000) 0 = .ok (some 2700)
      rw [resolveDuration_completed]
      have harith : (((2700000 : ℤ) : ℚ) - ((0 : ℤ) : ℚ)) / 1000 = ((2700 : ℤ) : ℚ) := by
        norm_num
      rw [harith, jsRound_intCast]
      rw [if_pos (by decide)]
    exact handleSubmit_ok_intro stateC2a routinePlain
      [⟨1, "Press", 1, none, 8, .normal, none⟩] 0 (some 2700000) (some 2700)
      (by decide) (by decide) (by decide) (by decide) (by decide) (by decide) (by decide) h4
  · have h4 : resolveDuration stateC2b.durationMinutes stateC2b.markCompleted
        (some 2700000) 0 = .ok (some 1800) := by
      show resolveDuration (JsStr.num 30) true (some 2700000) 0 = .ok (some 1800)
      have hm30 : jsRound ((30 : ℚ) * 60) = 1800 := by
        have h60 : ((30 : ℚ) * 60) = ((1800 : ℤ) : ℚ) := by norm_num
        rw [h60, jsRound_intCast]
      unfold resolveDuration
      rw [if_pos (by decide)]
      show (if (30 : ℚ) ≤ 0 then Except.error FormError.durationInvalid
        else Except.ok (some (jsRound ((30 : ℚ) * 60)))) = Except.ok (some 1800)
      rw [if_neg (by norm_num), hm30]
    exact handleSubmit_ok_intro stateC2b routinePlain
      [⟨1, "Press", 1, none, 8, .normal, none⟩] 0 (some 2700000) (some 1800)
      (by decide) (by decide) (by decide) (by decide) (by decide) (by decide) (by decide) h4

theorem buildSet_default (e : RoutineExercise) (i : ℕ) (h : 1 ≤ defaultReps e) :
    buildSet e.exerciseId e.exerciseName i (materializeSet e) = .ok (defaultPayloadSet e i) := by
  have h1 : ¬ (((defaultReps e : ℤ) : ℚ) < 1) := by
    rw [not_lt]
    exact_mod_cast h
  rcases hrt : e.restTime with _ | rt
  · simp [buildSet, materializeSet, jsToNum, defaultPayloadSet, hrt, h1, jsRound_intCast]
  · simp [buildSet, materializeSet, jsToNum, defaultPayloadSet, hrt, h1, jsRound_intCast]

theorem flattenSets_default (e : RoutineExercise) (h : 1 ≤ defaultReps e) :
    ∀ n i, flattenSets e.exerciseId e.exerciseName i (List.replicate n (materializeSet e)) =
      .ok ((List.range n).map fun j => defaultPayloadSet e (i + j)) := by
  intro n
  induction n with
  | zero => intro i; simp [flattenSets]
  | succ n ih =>
    intro i
    rw [List.replicate_succ]
    simp only [flattenSets, buildSet_default e i h, ih (i + 1)]
    rw [List.range_succ_eq_map]
    simp only [List.map_cons, List.map_map, Nat.add_zero]
    congr 1
    congr 1
    apply List.map_congr_left
    intro j hj
    simp only [Function.comp]
    congr 1
    omega

theorem flattenAll_materialize (l : List RoutineExercise)
    (h : ∀ e ∈ l, 1 ≤ defaultReps e) :
    flattenAll (l.map materializeExercise) = .ok ((l.map expectedDefaultSets).flatten) := by
  induction l with
  | nil => simp [flattenAll]
  | cons e rest ih =>
    have h1 := flattenSets_default e (h e (by simp)) e.sets.toNat 0
    have h2 := ih fun e2 he2 => h e2 (by simp [he2])
    simp only [List.map_cons, flattenAll, materializeExercise, h1, h2, List.flatten_cons]
    simp [expectedDefaultSets]

/-- C1 (amended): for every routine at least one of whose entries has a
positive target set count, and all of whose entries have a default reps
value (`repRangeMin ?? repRangeMax ?? 10`) of at least 1, materializing the
form and submitting it untouched produces exactly the payload whose sets
are, per entry in order, `sets` many default sets numbered 1..n, with reps
equal to the default reps value, empty weight, and the entry's technique
and rest time; the total set count is the sum of the entries' target set
counts. -/
theorem c1_untouched_submission (R : Routine) (t : ℤ)
    (hsets : ∃ e ∈ R.exercises, 1 ≤ e.sets)
    (hreps : ∀ e ∈ R.exercises, 1 ≤ defaultReps e) :
    handleSubmit (initialFormState R t) = Except.ok
      { routineId := R.id, routineName := R.name, startedAt := t,
        completedAt := none, duration := none, notes := none,
        sets := (R.exercises.map expectedDefaultSets).flatten } ∧
    ((R.exercises.map expectedDefaultSets).flatten).length =
      (R.exercises.map fun e => e.sets.toNat).sum ∧
    (∀ e ∈ R.exercises, expectedDefaultSets e =
      (List.range e.sets.toNat).map fun j =>
        { exerciseId := e.exerciseId, exerciseName := e.exerciseName, setNumber := j + 1,
          weight := none, reps := defaultReps e, technique := e.technique,
          restTime := e.restTime }) := by
  refine ⟨?_, ?_, ?_⟩
  · have hflat := flattenAll_materialize R.exercises hreps
    have hne : (R.exercises.map expectedDefaultSets).flatten ≠ [] := by
      obtain ⟨e, he, he1⟩ := hsets
      intro h0
      rw [List.flatten_eq_nil_iff] at h0
      have h2 := h0 (expectedDefaultSets e) (List.mem_map_of_mem _ he)
      have h3 := congrArg List.length h2
      simp [expectedDefaultSets] at h3
      omega
    have hee : loadRoutineExercises R ≠ [] := by
      obtain ⟨e, he, -⟩ := hsets
      simp only [loadRoutineExercises, ne_eq, List.map_eq_nil_iff]
      intro h0
      rw [h0] at he
      simp at he
    exact handleSubmit_ok_intro (initialFormState R t) R
      ((R.exercises.map expectedDefaultSets).flatten) t none none
      rfl (by simp [initialFormState]) hee hflat hne rfl
      (resolveCompletedAt_false _ _) (resolveDuration_none _ _ _ (Or.inl rfl))
  · rw [List.length_flatten, List.map_map]
    congr 1
    apply List.map_congr_left
    intro e he
    simp [expectedDefaultSets, Function.comp]
  · intro e he
    rfl

/-- C1 counterexample: a routine whose only entry has one target set and
`repRangeMin = 0` — materializing and submitting untouched fails with the
per-set reps error instead of producing a payload. -/
theorem c1_untouched_submission_counterexample :
    routineC1.exercises ≠ [] ∧
    handleSubmit (initialFormState routineC1 0) = Except.error FormError.repsAtLeastOne := by
  exact ⟨by decide, by decide⟩

/-- C1 witness: the end-to-end example — one exercise, 3 target sets, rep
range 8-12, technique normal — yields exactly 3 sets numbered 1, 2, 3 with
reps 8 and the routine's technique and rest. -/
theorem c1_untouched_submission_witness :
    handleSubmit (initialFormState routineC1w 0) = Except.ok
      { routineId := 7, routineName := "Empuje", startedAt := 0, completedAt := none,
        duration := none, notes := none,
        sets := [⟨1, "Press de banca", 1, none, 8, .normal, some 90⟩,
                 ⟨1, "Press de banca", 2, none, 8, .normal, some 90⟩,
                 ⟨1, "Press de banca", 3, none, 8, .normal, some 90⟩] } := by
  have h := (c1_untouched_submission routineC1w 0 (by decide) (by decide)).1
  exact h.trans (by decide)

/-- C10 witness: the four present-label branches and the absent branch of
the amended characterization at concrete routine entries. -/
theorem c10_target_range_label_witness :
    getTargetRange ⟨1, "x", 3, some 8, some 12, .normal, none⟩ =
      some (toString (8 : ℤ) ++ "-" ++ toString (12 : ℤ) ++ " repeticiones") ∧
    getTargetRange ⟨1, "x", 3, some 9, some 9, .normal, none⟩ =
      some (toString (9 : ℤ) ++ " repeticiones") ∧
    getTargetRange ⟨1, "x", 3, some 8, none, .normal, none⟩ =
      some ("≥ " ++ toString (8 : ℤ) ++ " repeticiones") ∧
    getTargetRange ⟨1, "x", 3, none, some 12, .normal, none⟩ =
      some ("≤ " ++ toString (12 : ℤ) ++ " repeticiones") ∧
    getTargetRange ⟨1, "x", 3, none, some 0, .normal, none⟩ = none := by
  refine ⟨(c10_target_range_label _).1 8 12 rfl rfl (by decide) (by decide) (by decide),
    (c10_target_range_label _).2.1 9 rfl rfl (by decide),
    (c10_target_range_label _).2.2.1 8 rfl (by decide) (Or.inl rfl),
    (c10_target_range_label _).2.2.2.1 12 rfl (by decide) (Or.inl rfl),
    (c10_target_range_label _).2.2.2.2 (Or.inl rfl) (Or.inr rfl)⟩

theorem length_mapAtIdx (f : α → α) : ∀ (i : ℕ) (l : List α),
    (mapAtIdx f i l).length = l.length := by
  intro i l
  induction l generalizing i with
  | nil => cases i <;> rfl
  | cons x xs ih =>
    cases i with
    | zero => rfl
    | succ n => simp [mapAtIdx, ih n]

theorem getElem?_mapAtIdx_ne (f : α → α) : ∀ (i j : ℕ) (l : List α), j ≠ i →
    (mapAtIdx f i l)[j]? = l[j]? := by
  intro i j l
  induction l generalizing i j with
  | nil => intro _; cases i <;> rfl
  | cons x xs ih =>
    intro hne
    cases i with
    | zero =>
      cases j with
      | zero => exact absurd rfl hne
      | succ m => simp [mapAtIdx]
    | succ n =>
      cases j with
      | zero => simp [mapAtIdx]
      | succ m => simpa [mapAtIdx] using ih n m (by omega)

theorem getElem?_mapAtIdx_eq (f : α → α) : ∀ (i : ℕ) (l : List α),
    (mapAtIdx f i l)[i]? = (l[i]?).map f := by
  intro i l
  induction l generalizing i with
  | nil => cases i <;> rfl
  | cons x xs ih =>
    cases i with
    | zero => simp [mapAtIdx]
    | succ n => simpa [mapAtIdx] using ih n

theorem mem_mapAtIdx (f : α → α) : ∀ (i : ℕ) (l : List α) (x : α),
    x ∈ mapAtIdx f i l → x ∈ l ∨ ∃ y ∈ l, x = f y := by
  intro i l
  induction l generalizing i with
  | nil => intro x hx; cases i <;> simp [mapAtIdx] at hx
  | cons a xs ih =>
    intro x hx
    cases i with
    | zero =>
      simp only [mapAtIdx] at hx
      rcases List.mem_cons.mp hx with rfl | hmem
      · exact Or.inr ⟨a, List.mem_cons_self a xs, rfl⟩
      · exact Or.inl (List.mem_cons_of_mem a hmem)
    | succ n =>
      simp only [mapAtIdx] at hx
      rcases List.mem_cons.mp hx with rfl | hmem
      · exact Or.inl (List.mem_cons_self _ _)
      · rcases ih n x hmem with h | ⟨y, hy, hxy⟩
        · exact Or.inl (List.mem_cons_of_mem a h)
        · exact Or.inr ⟨y, List.mem_cons_of_mem a hy, hxy⟩

theorem mapAtIdx_id_of (f : α → α) : ∀ (i : ℕ) (l : List α),
    (∀ x, l[i]? = some x → f x = x) → mapAtIdx f i l = l := by
  intro i l
  induction l generalizing i with
  | nil => intro _; cases i <;> rfl
  | cons a xs ih =>
    intro hx
    cases i with
    | zero =>
      have := hx a (by simp)
      simp [mapAtIdx, this]
    | succ n =>
      simp only [mapAtIdx, List.cons.injEq, true_and]
      exact ih n fun x h => hx x (by simpa using h)

theorem filterIdxNe_eq_eraseIdx : ∀ (l : List WorkoutSetForm) (k i : ℕ),
    filterIdxNe k i l = if i ≤ k then l.eraseIdx (k - i) else l := by
  intro l
  induction l with
  | nil => intro k i; simp [filterIdxNe]
  | cons x xs ih =>
    intro k i
    by_cases hik : i = k
    · simp only [filterIdxNe, if_pos hik, ih k (i + 1)]
      rw [if_neg (by omega), if_pos (by omega)]
      have h0 : k - i = 0 := by omega
      rw [h0]
      rfl
    · simp only [filterIdxNe, if_neg hik, ih k (i + 1)]
      by_cases hle : i ≤ k
      · rw [if_pos (by omega), if_pos hle]
        have hk : k - i = (k - (i + 1)) + 1 := by omega
        rw [hk]
        rfl
      · rw [if_neg (by omega), if_neg hle]

/-- C8: remove-set deletes exactly the set at the given index of the given
exercise (leaving every other exercise untouched), is a no-op on the whole
state when at most one set remains, and consequently preserves the
invariant that every exercise keeps at least one set. -/
theorem c8_remove_set (i j : ℕ) (exs : List ExerciseWorkoutForm) :
    (handleRemoveSet i j exs).length = exs.length ∧
    (∀ k, k ≠ i → (handleRemoveSet i j exs)[k]? = exs[k]?) ∧
    (∀ ex, exs[i]? = some ex → ex.sets.length ≤ 1 → handleRemoveSet i j exs = exs) ∧
    (∀ ex, exs[i]? = some ex → 2 ≤ ex.sets.length →
      (handleRemoveSet i j exs)[i]? =
        some { ex with sets := ex.sets.take j ++ ex.sets.drop (j + 1) }) ∧
    ((∀ ex ∈ exs, 1 ≤ ex.sets.length) → ∀ ex ∈ handleRemoveSet i j exs, 1 ≤ ex.sets.length) := by
  refine ⟨length_mapAtIdx _ _ _, fun k hk => getElem?_mapAtIdx_ne _ _ _ _ hk, ?_, ?_, ?_⟩
  · intro ex hex hle
    unfold handleRemoveSet
    apply mapAtIdx_id_of
    intro x hx
    rw [hex] at hx
    obtain rfl : ex = x := by simpa using hx
    show (if ex.sets.length ≤ 1 then ex else { ex with sets := filterIdxNe j 0 ex.sets }) = ex
    rw [if_pos hle]
  · intro ex hex h2
    have hnle : ¬ ex.sets.length ≤ 1 := by omega
    rw [handleRemoveSet, getElem?_mapAtIdx_eq, hex]
    simp only [Option.map_some']
    rw [if_neg hnle, filterIdxNe_eq_eraseIdx, if_pos (Nat.zero_le j), Nat.sub_zero,
      List.eraseIdx_eq_take_drop_succ]
  · intro hpre ex hex
    rcases mem_mapAtIdx _ _ _ _ hex with hmem | ⟨y, hy, rfl⟩
    · exact hpre ex hmem
    · by_cases hle : y.sets.length ≤ 1
      · simpa [hle] using hpre y hy
      · have h1 := hpre y hy
        simp only [if_neg hle]
        rw [filterIdxNe_eq_eraseIdx, if_pos (Nat.zero_le j), Nat.sub_zero]
        have := List.length_eraseIdx (l := y.sets) (i := j)
        by_cases hj : j < y.sets.length
        · simp [List.length_eraseIdx, hj]
          omega
        · simp [List.length_eraseIdx, hj]
          omega

/-- C7 (amended): add-set appends exactly one set to the chosen exercise
and changes nothing else; the appended set clones the last existing set's
reps, technique and rest (weight restarts empty); when the set list is
empty it falls back to the routine entry's values, with reps seeded from
`repRangeMin ?? 10` — `repRangeMax` is never consulted. -/
theorem c7_add_set (routine : Option Routine) (i : ℕ) (exs : List ExerciseWorkoutForm) :
    (handleAddSet routine i exs).length = exs.length ∧
    (∀ j, j ≠ i → (handleAddSet routine i exs)[j]? = exs[j]?) ∧
    (handleAddSet routine i exs)[i]? =
      (exs[i]?).map (fun ex => { ex with sets := ex.sets ++ [addedSet routine i ex] }) ∧
    (∀ ex ls, ex.sets.getLast? = some ls →
      addedSet routine i ex =
        { weight := JsStr.empty, reps := ls.reps, technique := ls.technique,
          restTime := ls.restTime }) ∧
    (∀ ex re, ex.sets = [] → (routine.bind fun r => r.exercises[i]?) = some re →
      addedSet routine i ex =
        { weight := JsStr.empty
          reps := JsStr.num ((re.repRangeMin.getD 10 : ℤ) : ℚ)
          technique := re.technique
          restTime :=
            match re.restTime with
            | some rt => JsStr.num (rt : ℚ)
            | none => JsStr.empty }) := by
  refine ⟨length_mapAtIdx _ _ _, fun j hj => getElem?_mapAtIdx_ne _ _ _ _ hj,
    getElem?_mapAtIdx_eq _ _ _, ?_, ?_⟩
  · intro ex ls hls
    simp [addedSet, hls]
  · intro ex re hnil hre
    have hlast : ex.sets.getLast? = none := by
      simp [hnil]
    rcases Option.bind_eq_some.mp hre with ⟨r, hr1, hr2⟩
    subst hr1
    simp [addedSet, hlast, hr2]

/-- C7 counterexample: an entry with `repRangeMin` absent and
`repRangeMax = 12` — the set appended to an empty list gets default reps
"10" (the literal fallback), not "12" from `repRangeMax` as the claim
requires. -/
theorem c7_add_set_counterexample :
    (routineC7.exercises[0]?).bind (fun re => re.repRangeMax) = some 12 ∧
    handleAddSet (some routineC7) 0 [exerciseFormC7] =
      [⟨2, "Sentadilla", none, [⟨JsStr.empty, JsStr.num 10, Technique.dropset, JsStr.num 90⟩]⟩] ∧
    JsStr.num (10 : ℚ) ≠ JsStr.num (12 : ℚ) := by
  exact ⟨by decide, by decide, by decide⟩

/-- C7 witness: untouched indices are unchanged and the appended set clones
the last existing set's reps, technique and rest with empty weight. -/
theorem c7_add_set_witness :
    (handleAddSet (some routineC7) 0 [exerciseFormC7b])[1]? = ([exerciseFormC7b])[1]? ∧
    addedSet (some routineC7) 0 exerciseFormC7b =
      { weight := JsStr.empty, reps := JsStr.num 5, technique := Technique.failure,
        restTime := JsStr.num 60 } := by
  refine ⟨(c7_add_set (some routineC7) 0 [exerciseFormC7b]).2.1 1 (by decide), ?_⟩
  exact (c7_add_set (some routineC7) 0 [exerciseFormC7b]).2.2.2.1 exerciseFormC7b
    ⟨JsStr.num 100, JsStr.num 5, Technique.failure, JsStr.num 60⟩ (by decide)

/-- C8 witness: removing from the single-set exercise is a whole-state
no-op; removing set 0 of the two-set exercise leaves exactly its second
set, and every exercise keeps at least one set. -/
theorem c8_remove_set_witness :
    handleRemoveSet 1 0 exercisesC8 = exercisesC8 ∧
    (handleRemoveSet 0 0 exercisesC8)[0]? =
      some ⟨1, "a", none, [⟨JsStr.num 50, JsStr.num 6, Technique.dropset, JsStr.num 60⟩]⟩ ∧
    (∀ ex ∈ handleRemoveSet 0 0 exercisesC8, 1 ≤ ex.sets.length) := by
  refine ⟨(c8_remove_set 1 0 exercisesC8).2.2.1
      ⟨2, "b", none, [⟨JsStr.empty, JsStr.num 10, Technique.normal, JsStr.empty⟩]⟩
      (by decide) (by decide), ?_,
    (c8_remove_set 0 0 exercisesC8).2.2.2.2 (by decide)⟩
  have h := (c8_remove_set 0 0 exercisesC8).2.2.2.1
    ⟨1, "a", none, [⟨JsStr.empty, JsStr.num 8, Technique.normal, JsStr.empty⟩,
      ⟨JsStr.num 50, JsStr.num 6, Technique.dropset, JsStr.num 60⟩]⟩
    (by decide) (by decide)
  rw [h]
  decide

theorem mem_foldl_firstSeen (l : List ℤ) : ∀ (acc : List ℤ) (k : ℤ),
    (k ∈ l.foldl (fun acc k => if k ∈ acc then acc else acc ++ [k]) acc) ↔ k ∈ acc ∨ k ∈ l := by
  induction l with
  | nil => intro acc k; simp
  | cons a rest ih =>
    intro acc k
    rw [List.foldl_cons, ih]
    by_cases ha : a ∈ acc
    · rw [if_pos ha]
      constructor
      · rintro (h | h)
        · exact Or.inl h
        · exact Or.inr (by simp [h])
      · rintro (h | h)
        · exact Or.inl h
        · rcases List.mem_cons.mp h with rfl | h2
          · exact Or.inl ha
          · exact Or.inr h2
    · rw [if_neg ha]
      simp only [List.mem_append, List.mem_cons, List.mem_singleton]
      tauto

theorem mem_firstSeenKeys (l : List ℤ) (k : ℤ) : k ∈ firstSeenKeys l ↔ k ∈ l := by
  rw [firstSeenKeys, mem_foldl_firstSeen]
  simp

theorem firstSeenKeys_append_singleton (xs : List ℤ) (k : ℤ) :
    firstSeenKeys (xs ++ [k]) =
      if k ∈ firstSeenKeys xs then firstSeenKeys xs else firstSeenKeys xs ++ [k] := by
  rw [firstSeenKeys, List.foldl_append]
  rfl

theorem groupFor_fst (sets : List WorkoutSet) (k : ℤ) : (groupFor sets k).1 = k := rfl

theorem groupFor_append_ne (l : List WorkoutSet) (a : WorkoutSet) (k : ℤ)
    (hka : k ≠ a.exerciseId) : groupFor (l ++ [a]) k = groupFor l k := by
  unfold groupFor
  rw [List.filter_append, List.find?_append]
  have h1 : List.filter (fun s => decide (s.exerciseId = k)) [a] = [] := by
    simp [Ne.symm hka]
  have h2 : List.find? (fun s => decide (s.exerciseId = k)) [a] = none := by
    simp [List.find?_eq_none, Ne.symm hka]
  rw [h1, h2, Option.or_none, List.append_nil]

theorem groupFor_append_self (l : List WorkoutSet) (a : WorkoutSet)
    (hmem : a.exerciseId ∈ l.map fun s => s.exerciseId) :
    groupFor (l ++ [a]) a.exerciseId =
      (a.exerciseId,
        { exerciseName := (groupFor l a.exerciseId).2.exerciseName
          sets := (groupFor l a.exerciseId).2.sets ++ [a] }) := by
  unfold groupFor
  rw [List.filter_append, List.find?_append]
  have hsome : (l.find? fun s => decide (s.exerciseId = a.exerciseId)).isSome := by
    rw [List.find?_isSome]
    obtain ⟨s, hs, hid⟩ := List.mem_map.mp hmem
    exact ⟨s, hs, by simp [hid]⟩
  obtain ⟨y, hy⟩ := Option.isSome_iff_exists.mp hsome
  rw [hy]
  simp [Option.or]

theorem groupFor_append_self_new (l : List WorkoutSet) (a : WorkoutSet)
    (hmem : a.exerciseId ∉ l.map fun s => s.exerciseId) :
    groupFor (l ++ [a]) a.exerciseId =
      (a.exerciseId, { exerciseName := a.exerciseName, sets := [a] }) := by
  unfold groupFor
  rw [List.filter_append, List.find?_append]
  have hnone : (l.find? fun s => decide (s.exerciseId = a.exerciseId)) = none := by
    rw [List.find?_eq_none]
    intro x hx
    simp only [decide_eq_true_eq]
    intro h0
    exact hmem (List.mem_map.mpr ⟨x, hx, h0⟩)
  have hnil : List.filter (fun s => decide (s.exerciseId = a.exerciseId)) l = [] := by
    rw [List.filter_eq_nil_iff]
    intro x hx
    simp only [decide_eq_true_eq]
    intro h0
    exact hmem (List.mem_map.mpr ⟨x, hx, h0⟩)
  rw [hnone, hnil]
  simp [Option.or]

theorem foldl_insertGrouped_eq (sets : List WorkoutSet) :
    sets.foldl insertGrouped [] = groupedSpec sets := by
  induction sets using List.reverseRecOn with
  | nil => rfl
  | append_singleton l a ih =>
    rw [List.foldl_append, List.foldl_cons, List.foldl_nil, ih]
    have hkeys : (groupedSpec l).map Prod.fst = firstSeenKeys (l.map fun s => s.exerciseId) := by
      rw [groupedSpec, List.map_map]
      have hid : (Prod.fst ∘ groupFor l) = id := by
        funext k
        rfl
      rw [hid, List.map_id]
    by_cases hmem : a.exerciseId ∈ l.map fun s => s.exerciseId
    · have hany : ((groupedSpec l).any fun p => p.1 = a.exerciseId) = true := by
        rw [List.any_eq_true]
        refine ⟨groupFor l a.exerciseId, ?_, by simp [groupFor_fst]⟩
        exact List.mem_map_of_mem _ ((mem_firstSeenKeys _ _).mpr hmem)
      rw [insertGrouped, if_pos hany, groupedSpec, groupedSpec, List.map_append,
        List.map_singleton, firstSeenKeys_append_singleton,
        if_pos ((mem_firstSeenKeys _ _).mpr hmem), List.map_map]
      apply List.map_congr_left
      intro k hk
      by_cases hka : k = a.exerciseId
      · subst hka
        rw [Function.comp_apply, groupFor_append_self l a hmem]
        simp [groupFor_fst]
      · rw [Function.comp_apply, groupFor_append_ne l a k hka]
        simp [groupFor_fst, hka]
    · have hany : ((groupedSpec l).any fun p => p.1 = a.exerciseId) = false := by
        rw [List.any_eq_false]
        intro p hp
        obtain ⟨k, hk, rfl⟩ := List.mem_map.mp hp
        simp only [groupFor_fst, decide_eq_true_eq]
        intro h0
        exact hmem ((mem_firstSeenKeys _ _).mp (h0 ▸ hk))
      rw [insertGrouped, if_neg (by simp [hany]), groupedSpec, groupedSpec, List.map_append,
        List.map_singleton, firstSeenKeys_append_singleton,
        if_neg (fun h => hmem ((mem_firstSeenKeys _ _).mp h)), List.map_append]
      congr 1
      · apply List.map_congr_left
        intro k hk
        have hka : k ≠ a.exerciseId := by
          intro h0
          exact hmem ((mem_firstSeenKeys _ _).mp (h0 ▸ hk))
        exact (groupFor_append_ne l a k hka).symm
      · simp only [List.map_cons, List.map_nil]
        rw [groupFor_append_self_new l a hmem]

theorem perm_insertBySetNumber (s : WorkoutSet) (l : List WorkoutSet) :
    (insertBySetNumber s l).Perm (s :: l) := by
  induction l with
  | nil => exact List.Perm.refl _
  | cons t ts ih =>
    rw [insertBySetNumber]
    split_ifs with h
    · exact ((ih.cons t).trans (List.Perm.swap s t ts))
    · exact List.Perm.refl _

theorem mem_insertBySetNumber (x s : WorkoutSet) (l : List WorkoutSet) :
    x ∈ insertBySetNumber s l ↔ x = s ∨ x ∈ l := by
  rw [(perm_insertBySetNumber s l).mem_iff, List.mem_cons]

theorem sorted_insertBySetNumber (s : WorkoutSet) (l : List WorkoutSet)
    (h : List.Pairwise (fun a b => a.setNumber ≤ b.setNumber) l) :
    List.Pairwise (fun a b => a.setNumber ≤ b.setNumber) (insertBySetNumber s l) := by
  induction l with
  | nil => simp [insertBySetNumber]
  | cons t ts ih =>
    rw [List.pairwise_cons] at h
    obtain ⟨ht, hts⟩ := h
    rw [insertBySetNumber]
    split_ifs with hle
    · rw [List.pairwise_cons]
      refine ⟨?_, ih hts⟩
      intro x hx
      rcases (mem_insertBySetNumber x s ts).mp hx with rfl | hmem
      · exact hle
      · exact ht x hmem
    · rw [List.pairwise_cons]
      refine ⟨?_, by rw [List.pairwise_cons]; exact ⟨ht, hts⟩⟩
      intro x hx
      rcases List.mem_cons.mp hx with rfl | hmem
      · omega
      · exact le_trans (by omega) (ht x hmem)

theorem sortBySetNumber_sorted (l : List WorkoutSet) :
    List.Pairwise (fun a b => a.setNumber ≤ b.setNumber) (sortBySetNumber l) := by
  have aux : ∀ (l2 acc : List WorkoutSet),
      List.Pairwise (fun a b => a.setNumber ≤ b.setNumber) acc →
      List.Pairwise (fun a b => a.setNumber ≤ b.setNumber)
        (l2.foldl (fun acc s => insertBySetNumber s acc) acc) := by
    intro l2
    induction l2 with
    | nil => intro acc h; exact h
    | cons x xs ih =>
      intro acc h
      rw [List.foldl_cons]
      exact ih _ (sorted_insertBySetNumber x acc h)
  exact aux l [] (by simp)

theorem sortBySetNumber_perm (l : List WorkoutSet) : (sortBySetNumber l).Perm l := by
  have aux : ∀ (l2 acc : List WorkoutSet),
      (l2.foldl (fun acc s => insertBySetNumber s acc) acc).Perm (acc ++ l2) := by
    intro l2
    induction l2 with
    | nil => intro acc; simp
    | cons x xs ih =>
      intro acc
      rw [List.foldl_cons]
      refine (ih (insertBySetNumber x acc)).trans ?_
      have h1 : (insertBySetNumber x acc ++ xs).Perm ((x :: acc) ++ xs) :=
        (perm_insertBySetNumber x acc).append_right xs
      refine h1.trans ?_
      exact List.perm_middle.symm
  simpa using aux l []

/-- C9: grouping of a persisted workout's sets.  `setsByExercise` produces
one group per exercise id in order of first appearance; each group carries
the name of that id's first set and exactly that id's sets, sorted by
ascending set number (a permutation of the original filter); the claim's
A/B example evaluates as stated. -/
theorem c9_sets_by_exercise (sets : List WorkoutSet) :
    setsByExercise sets =
      (firstSeenKeys (sets.map fun s => s.exerciseId)).map (fun k =>
        { exerciseName := ((sets.find? fun s => s.exerciseId = k).map fun s => s.exerciseName).getD ""
          sets := sortBySetNumber (sets.filter fun s => s.exerciseId = k) }) ∧
    (∀ g ∈ setsByExercise sets, List.Pairwise (fun a b => a.setNumber ≤ b.setNumber) g.sets) ∧
    (∀ l : List WorkoutSet, (sortBySetNumber l).Perm l) ∧
    setsByExercise setsC9 =
      [⟨"A", [⟨1, "A", 1, none, 8⟩, ⟨1, "A", 2, none, 8⟩]⟩,
       ⟨"B", [⟨2, "B", 1, none, 8⟩]⟩] := by
  have hmain : setsByExercise sets =
      (firstSeenKeys (sets.map fun s => s.exerciseId)).map (fun k =>
        { exerciseName := ((sets.find? fun s => s.exerciseId = k).map fun s => s.exerciseName).getD ""
          sets := sortBySetNumber (sets.filter fun s => s.exerciseId = k) }) := by
    rw [setsByExercise, foldl_insertGrouped_eq, groupedSpec, List.map_map]
    rfl
  refine ⟨hmain, ?_, sortBySetNumber_perm, by decide⟩
  intro g hg
  rw [hmain] at hg
  obtain ⟨k, hk, rfl⟩ := List.mem_map.mp hg
  exact sortBySetNumber_sorted _

/-- C9 witness: the sortedness of each group applied to the A-group of the
example list. -/
theorem c9_sets_by_exercise_witness :
    List.Pairwise (fun a b => a.setNumber ≤ b.setNumber)
      (ExerciseGroup.mk "A" [⟨1, "A", 1, none, 8⟩, ⟨1, "A", 2, none, 8⟩]).sets :=
  (c9_sets_by_exercise setsC9).2.1 ⟨"A", [⟨1, "A", 1, none, 8⟩, ⟨1, "A", 2, none, 8⟩]⟩
    (by decide)
